import Mathlib

/-!
Verification development for the Linguist Live application.

The embedding below models the core of the application: the PCM capture
encoder and ingest decoder (services/audioUtils), the playback scheduler,
the turn aggregator and the session lifecycle controller implemented in the
App component (src/unnamed/part_004, with src/unnamed/part_003 a close
variant).  Pure functions of the source become Lean functions; the React
refs and state hooks become fields of an explicit `AppState` record, and
each callback of the source (the transport `onmessage` handler, the
`ended` listener of a playback source, `disconnect`, `connect`) becomes a
state-transition function.  Time values (`AudioContext.currentTime`,
`audioBuffer.duration`) are modelled as rationals, `Date.now()` results as
naturals.
-/

deriving instance DecidableEq for Except

namespace LinguistLive

/-! ## Data model (src/types.ts) -/

/-- Role of a conversation message, from the `Message` interface of
src/types.ts (`role: 'user' | 'model'`). -/
inductive Role
  | user
  | model
deriving DecidableEq, Repr

/-- Type tag of a conversation message, from the `Message` interface of
src/types.ts (`type: 'chat' | 'correction' | 'tip'`). -/
inductive MsgType
  | chat
  | correction
  | tip
deriving DecidableEq, Repr

/-- The `Message` record of src/types.ts.  Timestamps (`Date.now()`) are
modelled as naturals. -/
structure Message where
  id : String
  role : Role
  text : String
  type : MsgType
  timestamp : ℕ
deriving DecidableEq, Repr

/-- The `SessionStatus` enum of src/types.ts. -/
inductive SessionStatus
  | DISCONNECTED
  | CONNECTING
  | CONNECTED
  | ERROR
deriving DecidableEq, Repr

/-! ## PCM encoder and decoder (services/audioUtils)

The file services/audioUtils.ts is imported by the App component
(`createPcmBlob`, `decodeAudioData`, `decodeFromBase64`) but is not part of
the sources; the functions below are modelled from the spec. -/

/-- Modelled from the spec (§4.1 Capture Encoder): "clamp each sample to
[-1, 1]".  The implementation file services/audioUtils.ts is missing from
the sources. -/
def clampSample (x : ℚ) : ℚ := max (-1) (min 1 x)

/-- Modelled from the spec (§4.1 Capture Encoder): "scale by the maximum
signed 16-bit magnitude, round to the nearest integer".  The maximum
signed 16-bit magnitude is 32767, the largest value representable in a
signed 16-bit integer.  The implementation file services/audioUtils.ts is
missing from the sources. -/
def encodeSample (x : ℚ) : ℤ := round (clampSample x * 32767)

/-- Low byte of the little-endian 16-bit two's-complement encoding of a
sample value. -/
def packLo (n : ℤ) : ℕ := (n % 65536).toNat % 256

/-- High byte of the little-endian 16-bit two's-complement encoding of a
sample value. -/
def packHi (n : ℤ) : ℕ := (n % 65536).toNat / 256

/-- Modelled from the spec (§4.1 Capture Encoder): encode a block of
floating-point samples and "pack as little-endian 16-bit signed integers
into a contiguous byte buffer".  The implementation `createPcmBlob` of
services/audioUtils.ts is missing from the sources; this models the byte
payload of the produced blob. -/
def createPcmBlob : List ℚ → List ℕ
  | [] => []
  | x :: xs => packLo (encodeSample x) :: packHi (encodeSample x) :: createPcmBlob xs

/-- Reinterpret two bytes as a little-endian signed 16-bit integer
(two's complement). -/
def unpackLE (lo hi : ℕ) : ℤ :=
  if lo % 256 + 256 * (hi % 256) < 32768 then
    ((lo % 256 + 256 * (hi % 256) : ℕ) : ℤ)
  else
    ((lo % 256 + 256 * (hi % 256) : ℕ) : ℤ) - 65536

/-- Modelled from the spec (§4.2 Ingest Decoder): "reinterpret as a
sequence of 16-bit signed integers, normalize each by dividing by the
maximum magnitude". -/
def bytesToSamples : List ℕ → List ℚ
  | lo :: hi :: rest => ((unpackLE lo hi : ℚ) / 32767) :: bytesToSamples rest
  | _ => []

/-- A decoding failure of the ingest decoder. -/
inductive DecodeError
  | truncated
deriving DecidableEq, Repr

/-- Modelled from the spec (§4.2 Ingest Decoder): decode a received byte
buffer into normalized samples; "malformed or truncated input fails with
DecodeError".  A buffer with an odd number of bytes is truncated (its last
16-bit sample is incomplete).  The implementations `decodeFromBase64` and
`decodeAudioData` of services/audioUtils.ts are missing from the sources;
this models their composition on the decoded byte payload. -/
def decodeAudioChunk (bytes : List ℕ) : Except DecodeError (List ℚ) :=
  if bytes.length % 2 = 0 then .ok (bytesToSamples bytes) else .error .truncated

/-- Duration of a decoded chunk: sample count divided by the output sample
rate (`OUTPUT_SAMPLE_RATE = 24000` in src/unnamed/part_004, line 13). -/
def chunkDuration (samples : List ℚ) : ℚ := (samples.length : ℚ) / 24000


/-! ## String helpers modelling the JavaScript string operations used in
src/unnamed/part_004 -/

/-- ASCII lower-casing of one character, modelling the effect of
`String.prototype.toLowerCase` (and of the regex flag `i`) on the ASCII
characters relevant to the marker vocabulary. -/
def lowerChar (c : Char) : Char :=
  if 'A' ≤ c ∧ c ≤ 'Z' then Char.ofNat (c.toNat + 32) else c

/-- Models `String.prototype.toLowerCase` (ASCII range). -/
def lowerStr (s : String) : String := ⟨s.data.map lowerChar⟩

/-- True when the pattern, compared case-insensitively, occurs at the head
of the character list. -/
def matchesAt : List Char → List Char → Bool
  | [], _ => true
  | _ :: _, [] => false
  | p :: ps, c :: cs => p == lowerChar c && matchesAt ps cs

/-- One left-to-right, non-overlapping pass removing every occurrence of
`<noise>` or `[noise]` (case-insensitively), modelling
`text.replace(/<noise>|\[noise\]/gi, '')` of src/unnamed/part_004, line
161.  The first argument is recursion fuel (the caller passes the list
length), keeping the definition structurally recursive and hence
kernel-evaluable. -/
def stripNoiseAux : ℕ → List Char → List Char
  | _, [] => []
  | 0, cs => cs
  | fuel + 1, c :: cs =>
    if matchesAt ['<', 'n', 'o', 'i', 's', 'e', '>'] (c :: cs) then
      stripNoiseAux fuel (List.drop 6 cs)
    else if matchesAt ['[', 'n', 'o', 'i', 's', 'e', ']'] (c :: cs) then
      stripNoiseAux fuel (List.drop 6 cs)
    else c :: stripNoiseAux fuel cs

/-- Models `text.replace(/<noise>|\[noise\]/gi, '')`. -/
def stripNoise (s : String) : String := ⟨stripNoiseAux s.data.length s.data⟩

/-- ASCII whitespace, the fragment of the whitespace class trimmed by
`String.prototype.trim` that is relevant here. -/
def isSpaceChar (c : Char) : Bool := c == ' ' || c == '\t' || c == '\n' || c == '\r'

/-- Drop leading whitespace characters. -/
def dropSpaces : List Char → List Char
  | [] => []
  | c :: cs => if isSpaceChar c then dropSpaces cs else c :: cs

/-- Models `String.prototype.trim` (ASCII whitespace): remove leading and
trailing whitespace. -/
def jsTrim (s : String) : String :=
  ⟨dropSpaces (dropSpaces s.data.reverse).reverse⟩

/-- True when the pattern occurs at the head of the list (exact match). -/
def leadsList : List Char → List Char → Bool
  | [], _ => true
  | _ :: _, [] => false
  | p :: ps, c :: cs => p == c && leadsList ps cs

/-- True when the pattern occurs somewhere in the list, modelling
`String.prototype.includes`. -/
def hasSubList (pat : List Char) : List Char → Bool
  | [] => pat.isEmpty
  | c :: cs => leadsList pat (c :: cs) || hasSubList pat cs

/-- Models the correction test of src/unnamed/part_004, line 180:
`fullOut.toLowerCase().includes('correction:') ||
fullOut.toLowerCase().includes('tip:')`. -/
def isCorrectionText (t : String) : Bool :=
  hasSubList "correction:".data (lowerStr t).data ||
    hasSubList "tip:".data (lowerStr t).data

/-! ## Application state (src/unnamed/part_004)

The React state hooks and refs of the App component become the fields of
`AppState`.  A playback source (`AudioBufferSourceNode`) is a `Source`
record; the pool `sources` holds every source created in the session and
`active` holds the ids currently in `sourcesRef` (the ActivePlaybackSet),
so that force-stopping a handle remains observable after the set is
cleared. -/

/-- A playback handle (`AudioBufferSourceNode`): scheduled start time,
duration of its buffer, and whether `stop()` has been called on it. -/
structure Source where
  id : ℕ
  startTime : ℚ
  duration : ℚ
  stopped : Bool
deriving DecidableEq, Repr

/-- An `AudioContext`; `closed` records whether `close()` was called. -/
structure AudioCtx where
  closed : Bool
deriving DecidableEq, Repr

/-- The state of the App component: React state hooks (`status`,
`messages`, `currentInput`, `currentOutput`, `error`) and refs
(`inputAudioContextRef`, `outputAudioContextRef`, `sessionRef`,
`sourcesRef` as `active`, `nextStartTimeRef`).  `sources` is the pool of
every source node created in the session, `nextSourceId` the id supply,
`mediaStreamActive` whether `getUserMedia` succeeded, and `currentTense`
the `learningConfig.currentTense` field. -/
structure AppState where
  status : SessionStatus
  messages : List Message
  currentInput : String
  currentOutput : String
  error : Option String
  inputAudioContext : Option AudioCtx
  outputAudioContext : Option AudioCtx
  sessionOpen : Bool
  mediaStreamActive : Bool
  sources : List Source
  active : List ℕ
  nextStartTime : ℚ
  nextSourceId : ℕ
  currentTense : String
deriving DecidableEq, Repr

/-- The initial state of the App component (initial hook values of
src/unnamed/part_004, lines 34-54). -/
def initState : AppState where
  status := .DISCONNECTED
  messages := []
  currentInput := ""
  currentOutput := ""
  error := none
  inputAudioContext := none
  outputAudioContext := none
  sessionOpen := false
  mediaStreamActive := false
  sources := []
  active := []
  nextStartTime := 0
  nextSourceId := 0
  currentTense := "Present (Situasi)"

/-- One inbound `LiveServerMessage`: the fields of `serverContent` read by
the `onmessage` handler of src/unnamed/part_004.  `audioData` is the byte
payload of `modelTurn.parts[0].inlineData.data` after transport decoding. -/
structure ServerMessage where
  outputTranscription : Option String
  inputTranscription : Option String
  turnComplete : Bool
  audioData : Option (List ℕ)
  interrupted : Bool
deriving DecidableEq, Repr

/-! ## Transition functions (src/unnamed/part_004) -/

/-- Transcription handling of `onmessage` (lines 158-163): an output
fragment is appended verbatim to `currentOutput`; otherwise an input
fragment is noise-stripped and trimmed, and appended to `currentInput`
when non-empty. -/
def applyTranscription (m : ServerMessage) (s : AppState) : AppState :=
  match m.outputTranscription with
  | some t => { s with currentOutput := s.currentOutput ++ t }
  | none =>
    match m.inputTranscription with
    | some t0 =>
      let t := jsTrim (stripNoise t0)
      if t ≠ "" then { s with currentInput := s.currentInput ++ t } else s
    | none => s

/-- The Message pushed for the user role at a turn boundary
(src/unnamed/part_004, lines 168-174). -/
def userMessage (now : ℕ) (text : String) : Message where
  id := toString now ++ "-in"
  role := .user
  text := text
  type := .chat
  timestamp := now

/-- The Message pushed for the model role at a turn boundary
(src/unnamed/part_004, lines 180-187). -/
def modelMessage (now : ℕ) (text : String) : Message where
  id := toString now ++ "-out"
  role := .model
  text := text
  type := if isCorrectionText text then .correction else .chat
  timestamp := now

/-- Turn-complete handling of `onmessage` (lines 165-191): finalize each
non-empty (after trim) buffer into a Message appended to `messages`, and
reset both buffers. -/
def applyTurnComplete (now : ℕ) (m : ServerMessage) (s : AppState) : AppState :=
  if m.turnComplete then
    let s1 :=
      if jsTrim s.currentInput ≠ "" then
        { s with messages := s.messages ++ [userMessage now s.currentInput],
                 currentInput := "" }
      else { s with currentInput := "" }
    if jsTrim s1.currentOutput ≠ "" then
      { s1 with messages := s1.messages ++ [modelMessage now s1.currentOutput],
                currentOutput := "" }
    else { s1 with currentOutput := "" }
  else s

/-- Scheduling of a successfully decoded chunk (lines 200-207): create a
source starting at the (already bumped) cursor, advance the cursor by the
chunk duration, and add the source to the set. -/
def scheduleChunk (samples : List ℚ) (s : AppState) : AppState :=
  { s with
    sources := s.sources ++
      [{ id := s.nextSourceId, startTime := s.nextStartTime,
         duration := chunkDuration samples, stopped := false }],
    active := s.active ++ [s.nextSourceId],
    nextStartTime := s.nextStartTime + chunkDuration samples,
    nextSourceId := s.nextSourceId + 1 }

/-- Force-stop every source whose id is in the given active set
(`sourcesRef.current.forEach(s => { try { s.stop(); } catch(e) {} })`). -/
def stopActive (act : List ℕ) (srcs : List Source) : List Source :=
  srcs.map fun src => if src.id ∈ act then { src with stopped := true } else src

/-- Interruption handling of `onmessage` (lines 210-214): stop every
active source, clear the set, reset the cursor to 0. -/
def applyInterrupted (m : ServerMessage) (s : AppState) : AppState :=
  if m.interrupted then
    { s with sources := stopActive s.active s.sources,
             active := [],
             nextStartTime := 0 }
  else s

/-- Audio handling of `onmessage` (lines 193-214), including the
interruption check that follows it in the handler.  With no audio payload
control falls through to the interruption check.  With an audio payload:
if the output context ref is null the handler returns early (skipping the
interruption check); otherwise the cursor is first bumped to
`max(cursor, audioCtx.currentTime)` (line 198), then the chunk is decoded
— a decode failure rejects the async handler, so the statements after it
(including the interruption check) do not run and only the cursor bump
persists; on success the chunk is scheduled and the interruption check
runs. -/
def handleAudio (clock : ℚ) (m : ServerMessage) (s : AppState) : AppState :=
  match m.audioData with
  | none => applyInterrupted m s
  | some bytes =>
    match s.outputAudioContext with
    | none => s
    | some _ =>
      match decodeAudioChunk bytes with
      | .error _ => { s with nextStartTime := max s.nextStartTime clock }
      | .ok samples =>
        applyInterrupted m
          (scheduleChunk samples { s with nextStartTime := max s.nextStartTime clock })

/-- The `onmessage` callback of src/unnamed/part_004 (lines 157-215):
transcription fragments, then turn-complete finalization, then audio
scheduling and the interruption check.  `clock` is the output context's
`currentTime`, `now` the value of `Date.now()`. -/
def onmessage (clock : ℚ) (now : ℕ) (m : ServerMessage) (s : AppState) : AppState :=
  handleAudio clock m (applyTurnComplete now m (applyTranscription m s))

/-- The `ended` listener registered on each source (line 204):
`sourcesRef.current.delete(source)`. -/
def onEnded (id : ℕ) (s : AppState) : AppState :=
  { s with active := s.active.erase id }

/-- The `disconnect` callback of src/unnamed/part_004 (lines 69-93).  In
the source every fallible call inside it is guarded (`try { ... } catch(e)
{}` around `session.close()` and `source.stop()`; `close()` on an audio
context returns a promise and never throws synchronously), so the whole
teardown is a total function: it cannot raise.  The media stream tracks
are not stopped by the source, so `mediaStreamActive` is left unchanged;
`messages` and `error` are also untouched. -/
def disconnect (s : AppState) : AppState :=
  { s with
    sessionOpen := false,
    sources := stopActive s.active s.sources,
    active := [],
    nextStartTime := 0,
    inputAudioContext := none,
    outputAudioContext := none,
    status := .DISCONNECTED,
    currentInput := "",
    currentOutput := "",
    currentTense := "Present (Situasi)" }

/-- Which awaited steps of a connect attempt succeed: microphone
acquisition (`getUserMedia`) and the transport open
(`ai.live.connect` / `await sessionPromise`). -/
structure ConnectEnv where
  mediaOK : Bool
  transportOK : Bool
deriving DecidableEq, Repr

/-- The catch block of `connect` (src/unnamed/part_004, lines 236-239): it
only sets the error annotation and the status; it does not close the audio
contexts, stop the media stream, or null any ref. -/
def connectFail (s : AppState) : AppState :=
  { s with error := some "Gagal memulai sesi", status := .DISCONNECTED }

/-- The `connect` function of src/unnamed/part_004 (lines 95-240): set
CONNECTING and clear the error, create and store both audio contexts,
acquire the microphone, open the transport (on whose `onopen` the status
becomes CONNECTED), storing the session handle.  A failure at either
awaited step lands in the catch block `connectFail`. -/
def connect (env : ConnectEnv) (s : AppState) : AppState :=
  let s1 := { s with status := .CONNECTING, error := none,
                     inputAudioContext := some { closed := false },
                     outputAudioContext := some { closed := false } }
  if env.mediaOK then
    let s2 := { s1 with mediaStreamActive := true }
    if env.transportOK then
      { s2 with status := .CONNECTED, sessionOpen := true }
    else connectFail s2
  else connectFail s1

/-- The clear button of the session transcript
(src/unnamed/part_003, line 319: `setMessages([])`). -/
def clearMessages (s : AppState) : AppState := { s with messages := [] }

/-- The operations of the program that can touch the application state. -/
inductive Event
  | server (clock : ℚ) (now : ℕ) (m : ServerMessage)
  | ended (id : ℕ)
  | stopSession
  | startSession (env : ConnectEnv)
  | clearLog

/-- One step of the event-driven application. -/
def step (s : AppState) : Event → AppState
  | .server clock now m => onmessage clock now m s
  | .ended id => onEnded id s
  | .stopSession => disconnect s
  | .startSession env => connect env s
  | .clearLog => clearMessages s

/-- Run the application from its initial state over a list of events. -/
def run (evs : List Event) : AppState := evs.foldl step initState

/-- A source is audible at time t when it has not been stopped and t lies
inside its scheduled playback window. -/
def audibleAt (src : Source) (t : ℚ) : Prop :=
  src.stopped = false ∧ src.startTime ≤ t ∧ t < src.startTime + src.duration

/-- Number of messages of a given role in a conversation history. -/
def roleCount (r : Role) (l : List Message) : ℕ :=
  (l.filter fun msg => decide (msg.role = r)).length

/-- A message carrying only the turn-complete marker. -/
def turnOnlyMsg : ServerMessage := ⟨none, none, true, none, false⟩

/-- A state whose user buffer is whitespace only and whose model buffer
holds "Hi". -/
def bufferedState : AppState :=
  { initState with
    currentInput := "  "
    currentOutput := "Hi" }

/-- A concrete mid-session state: connected, one playing source (id 0),
cursor at 3. -/
def playingState : AppState :=
  { initState with
    status := .CONNECTED
    sessionOpen := true
    outputAudioContext := some ⟨false⟩
    inputAudioContext := some ⟨false⟩
    mediaStreamActive := true
    sources := [⟨0, 0, 1, false⟩]
    active := [0]
    nextStartTime := 3
    nextSourceId := 1 }

/-- A message carrying only the truncated audio chunk `[0]`. -/
def badChunkMsg : ServerMessage := ⟨none, none, false, some [0], false⟩

/-! ### Round-trip lemmas for the codec -/

/-- Unpacking the two packed bytes of a 16-bit value recovers it. -/
theorem unpackLE_packLE (n : ℤ) (h1 : -32768 ≤ n) (h2 : n ≤ 32767) :
    unpackLE (packLo n) (packHi n) = n := by
  unfold unpackLE packLo packHi
  split <;> omega

/-- The encoder output of an in-range sample fits in a signed 16-bit
integer. -/
theorem encodeSample_range (x : ℚ) (h1 : -1 ≤ x) (h2 : x ≤ 1) :
    -32767 ≤ encodeSample x ∧ encodeSample x ≤ 32767 := by
  unfold encodeSample clampSample
  rw [min_eq_right h2, max_eq_right h1]
  have hr : |x * 32767 - (round (x * 32767) : ℚ)| ≤ 1 / 2 := abs_sub_round (x * 32767)
  rw [abs_le] at hr
  have hub : ((round (x * 32767) : ℤ) : ℚ) ≤ 32767 + 1 / 2 := by nlinarith
  have hlb : (-32767 : ℚ) - 1 / 2 ≤ ((round (x * 32767) : ℤ) : ℚ) := by nlinarith
  constructor
  · have hc : ((-32768 : ℤ) : ℚ) < ((round (x * 32767) : ℤ) : ℚ) := by push_cast; linarith
    have := (Int.cast_lt (R := ℚ)).mp hc
    omega
  · have hc : ((round (x * 32767) : ℤ) : ℚ) < ((32768 : ℤ) : ℚ) := by push_cast; linarith
    have := (Int.cast_lt (R := ℚ)).mp hc
    omega

/-- Claim C9: for every sample x in [-1, 1], decoding the encoded value
(clamp to [-1, 1], scale by the maximum signed 16-bit magnitude, round to
nearest, pack as little-endian 16-bit signed integer, then normalize back
by dividing by the maximum magnitude) yields a value within 1/32768 of x.
The decoded value is the (unique) sample produced by `decodeAudioChunk` on
the byte buffer produced by `createPcmBlob`. -/
theorem c9_roundtrip_quantization (x : ℚ) (h1 : -1 ≤ x) (h2 : x ≤ 1) :
    decodeAudioChunk (createPcmBlob [x]) = .ok [((encodeSample x : ℤ) : ℚ) / 32767] ∧
    |((encodeSample x : ℤ) : ℚ) / 32767 - x| ≤ 1 / 32768 := by
  obtain ⟨hlo, hhi⟩ := encodeSample_range x h1 h2
  constructor
  · show decodeAudioChunk [packLo (encodeSample x), packHi (encodeSample x)] = _
    unfold decodeAudioChunk
    norm_num
    rw [show bytesToSamples [packLo (encodeSample x), packHi (encodeSample x)] =
          [((unpackLE (packLo (encodeSample x)) (packHi (encodeSample x)) : ℤ) : ℚ) / 32767]
        from rfl]
    rw [unpackLE_packLE (encodeSample x) (by omega) hhi]
  · have hclamp : clampSample x = x := by
      unfold clampSample; rw [min_eq_right h2, max_eq_right h1]
    have hr : |x * 32767 - ((encodeSample x : ℤ) : ℚ)| ≤ 1 / 2 := by
      unfold encodeSample; rw [hclamp]; exact abs_sub_round (x * 32767)
    have heq : ((encodeSample x : ℤ) : ℚ) / 32767 - x =
        (((encodeSample x : ℤ) : ℚ) - x * 32767) / 32767 := by ring
    rw [heq, abs_div, abs_of_pos (by norm_num : (0 : ℚ) < 32767)]
    rw [abs_sub_comm] at hr
    calc |((encodeSample x : ℤ) : ℚ) - x * 32767| / 32767
        ≤ (1 / 2) / 32767 := by
          apply div_le_div_of_nonneg_right hr (by norm_num) |>.trans_eq rfl
      _ ≤ 1 / 32768 := by norm_num

/-- Witness for C9 at the concrete sample x = 1/2. -/
theorem c9_roundtrip_quantization_witness :
    ((-1 : ℚ) ≤ 1 / 2 ∧ (1 / 2 : ℚ) ≤ 1) ∧
    (decodeAudioChunk (createPcmBlob [(1 / 2 : ℚ)]) =
        .ok [((encodeSample (1 / 2) : ℤ) : ℚ) / 32767] ∧
      |((encodeSample (1 / 2) : ℤ) : ℚ) / 32767 - 1 / 2| ≤ 1 / 32768) :=
  ⟨⟨by norm_num, by norm_num⟩,
    c9_roundtrip_quantization (1 / 2) (by norm_num) (by norm_num)⟩

/-! ## Helper lemmas about the transition functions -/

/-- Transcription handling only touches the two turn buffers. -/
theorem applyTranscription_fields (m : ServerMessage) (s : AppState) :
    (applyTranscription m s).messages = s.messages ∧
    (applyTranscription m s).sources = s.sources ∧
    (applyTranscription m s).active = s.active ∧
    (applyTranscription m s).nextStartTime = s.nextStartTime ∧
    (applyTranscription m s).nextSourceId = s.nextSourceId ∧
    (applyTranscription m s).outputAudioContext = s.outputAudioContext ∧
    (applyTranscription m s).sessionOpen = s.sessionOpen ∧
    (applyTranscription m s).status = s.status := by
  unfold applyTranscription
  cases m.outputTranscription <;> cases m.inputTranscription
  · simp
  · dsimp only
    split <;> simp
  · simp
  · simp

/-- Turn-complete handling only touches the message list and the two turn
buffers. -/
theorem applyTurnComplete_fields (now : ℕ) (m : ServerMessage) (s : AppState) :
    (applyTurnComplete now m s).sources = s.sources ∧
    (applyTurnComplete now m s).active = s.active ∧
    (applyTurnComplete now m s).nextStartTime = s.nextStartTime ∧
    (applyTurnComplete now m s).nextSourceId = s.nextSourceId ∧
    (applyTurnComplete now m s).outputAudioContext = s.outputAudioContext ∧
    (applyTurnComplete now m s).sessionOpen = s.sessionOpen ∧
    (applyTurnComplete now m s).status = s.status := by
  unfold applyTurnComplete
  by_cases h1 : m.turnComplete = true <;> simp only [h1, if_true, if_false, Bool.false_eq_true]
  · by_cases h2 : jsTrim s.currentInput = "" <;>
      by_cases h3 : jsTrim s.currentOutput = "" <;>
        simp [h2, h3]
  · simp

/-- The message list produced by the turn-complete handling, and the
resetting of both buffers. -/
theorem applyTurnComplete_messages (now : ℕ) (m : ServerMessage) (s : AppState)
    (h : m.turnComplete = true) :
    (applyTurnComplete now m s).messages =
      (s.messages ++
        (if jsTrim s.currentInput ≠ "" then [userMessage now s.currentInput] else [])) ++
        (if jsTrim s.currentOutput ≠ "" then [modelMessage now s.currentOutput] else []) ∧
    (applyTurnComplete now m s).currentInput = "" ∧
    (applyTurnComplete now m s).currentOutput = "" := by
  unfold applyTurnComplete
  by_cases h2 : jsTrim s.currentInput = "" <;>
    by_cases h3 : jsTrim s.currentOutput = "" <;>
      simp [h, h2, h3]

/-- Without a turn-complete marker the turn-complete handling is the
identity. -/
theorem applyTurnComplete_id (now : ℕ) (m : ServerMessage) (s : AppState)
    (h : m.turnComplete = false) :
    applyTurnComplete now m s = s := by
  simp [applyTurnComplete, h]

/-- The audio handling never touches the message list, the turn buffers,
the session handle, the status or the contexts. -/
theorem handleAudio_fields (clock : ℚ) (m : ServerMessage) (s : AppState) :
    (handleAudio clock m s).messages = s.messages ∧
    (handleAudio clock m s).currentInput = s.currentInput ∧
    (handleAudio clock m s).currentOutput = s.currentOutput ∧
    (handleAudio clock m s).sessionOpen = s.sessionOpen ∧
    (handleAudio clock m s).status = s.status ∧
    (handleAudio clock m s).outputAudioContext = s.outputAudioContext := by
  unfold handleAudio
  cases hA : m.audioData with
  | none =>
    unfold applyInterrupted
    by_cases h : m.interrupted = true <;> simp [h]
  | some bytes =>
    cases hoc : s.outputAudioContext with
    | none => simp [hoc]
    | some c =>
      cases hdc : decodeAudioChunk bytes with
      | error e => simp [hdc, hoc]
      | ok samples =>
        unfold applyInterrupted scheduleChunk
        by_cases h : m.interrupted = true <;> simp [h, hdc, hoc]

/-- The message list after a full `onmessage` step equals the list after
the turn-complete stage applied to the transcription stage. -/
theorem onmessage_messages (clock : ℚ) (now : ℕ) (m : ServerMessage) (s : AppState) :
    (onmessage clock now m s).messages =
      (applyTurnComplete now m (applyTranscription m s)).messages := by
  unfold onmessage
  exact (handleAudio_fields clock m _).1

/-! ## Claim C1 -/

/-- Claim C1, counterexample.  The claim states that when decoding of a
received chunk fails the playback cursor "does not advance at all".  In
the source the cursor is set to `max(cursor, clock())` (line 198 of
src/unnamed/part_004) before the decode is attempted, so on a state with
cursor 0 and output clock 5, processing a message whose audio payload is
the truncated one-byte buffer `[0]` leaves the cursor at 5, not 0.  The
active set and the source pool are indeed unchanged. -/
theorem c1_counterexample :
    decodeAudioChunk [0] = .error .truncated ∧
    (onmessage 5 0 ⟨none, none, false, some [0], false⟩
        { initState with outputAudioContext := some ⟨false⟩ }).nextStartTime = 5 ∧
    ¬ (onmessage 5 0 ⟨none, none, false, some [0], false⟩
        { initState with outputAudioContext := some ⟨false⟩ }).nextStartTime =
      ({ initState with outputAudioContext := some ⟨false⟩ } : AppState).nextStartTime := by
  refine ⟨rfl, ?_, ?_⟩ <;> decide

/-- Claim C1 as amended: if decoding of a received audio chunk fails, the
chunk is dropped — ActivePlaybackSet (`active`) and the source pool are
unchanged, no playback is scheduled, the session handle and status are
untouched and the handler remains able to process subsequent events — but
the playback cursor does not stay where it was: it has already been set to
`max(cursor, clock())` before the decode, so it may advance up to the
current output-clock time (never beyond it, and never by the chunk's
duration). -/
theorem c1_decode_failure (clock : ℚ) (now : ℕ) (m : ServerMessage) (s : AppState)
    (bytes : List ℕ) (e : DecodeError)
    (hbytes : m.audioData = some bytes)
    (hdec : decodeAudioChunk bytes = .error e)
    (hctx : s.outputAudioContext ≠ none) :
    (onmessage clock now m s).nextStartTime = max s.nextStartTime clock ∧
    (onmessage clock now m s).active = s.active ∧
    (onmessage clock now m s).sources = s.sources ∧
    (onmessage clock now m s).sessionOpen = s.sessionOpen ∧
    (onmessage clock now m s).status = s.status := by
  obtain ⟨ctx, hc⟩ := Option.ne_none_iff_exists'.mp hctx
  unfold onmessage
  set s2 := applyTurnComplete now m (applyTranscription m s) with hs2
  obtain ⟨-, hsrc1, hact1, hnst1, -, hoc1, hso1, hst1⟩ := applyTranscription_fields m s
  obtain ⟨hsrc2, hact2, hnst2, -, hoc2, hso2, hst2⟩ :=
    applyTurnComplete_fields now m (applyTranscription m s)
  have hc2 : s2.outputAudioContext = some ctx := by rw [← hs2] at hoc2; rw [hoc2, hoc1, hc]
  unfold handleAudio
  rw [hbytes, hc2]
  dsimp only
  rw [hdec]
  dsimp only
  rw [← hs2] at hsrc2 hact2 hnst2 hso2 hst2
  refine ⟨?_, ?_, ?_, ?_, ?_⟩ <;> simp [hsrc2, hact2, hnst2, hso2, hst2,
    hsrc1, hact1, hnst1, hso1, hst1]

/-- Witness for the amended claim C1 at a concrete state with a running
session, cursor 3, output clock 5 and the truncated chunk `[0]`. -/
theorem c1_decode_failure_witness :
    (badChunkMsg.audioData = some [0] ∧
      decodeAudioChunk [0] = .error .truncated ∧
      playingState.outputAudioContext ≠ none) ∧
    ((onmessage 5 7 badChunkMsg playingState).nextStartTime = max (3 : ℚ) 5 ∧
     (onmessage 5 7 badChunkMsg playingState).active = [0] ∧
     (onmessage 5 7 badChunkMsg playingState).sources = [⟨0, 0, 1, false⟩] ∧
     (onmessage 5 7 badChunkMsg playingState).sessionOpen = true ∧
     (onmessage 5 7 badChunkMsg playingState).status = .CONNECTED) :=
  ⟨⟨rfl, rfl, by decide⟩,
    c1_decode_failure 5 7 badChunkMsg playingState [0] .truncated rfl rfl (by decide)⟩

/-! ## Claim C2 -/

/-- Claim C2: for every received audio chunk that decodes successfully,
the scheduler computes `start = max(cursor, clock())`, starts the chunk's
playback at `start` (the new source's `startTime` is `start`), sets the
cursor to `start + chunk.duration`, adds the chunk's playback handle to
ActivePlaybackSet, and removes that handle from the set on the chunk's
natural completion (the `ended` listener).  The hypotheses delimit the
claim to the chunk-scheduling path: the message carries a decodable chunk,
an output context exists, the message does not additionally carry an
interruption marker (interruption is claim C3), and the fresh source id is
not already in the set. -/
theorem c2_schedule_chunk (clock : ℚ) (now : ℕ) (m : ServerMessage) (s : AppState)
    (bytes : List ℕ) (samples : List ℚ)
    (hbytes : m.audioData = some bytes)
    (hdec : decodeAudioChunk bytes = .ok samples)
    (hctx : s.outputAudioContext ≠ none)
    (hint : m.interrupted = false)
    (hfresh : s.nextSourceId ∉ s.active) :
    (onmessage clock now m s).sources =
      s.sources ++
        [⟨s.nextSourceId, max s.nextStartTime clock, chunkDuration samples, false⟩] ∧
    (onmessage clock now m s).active = s.active ++ [s.nextSourceId] ∧
    (onmessage clock now m s).nextStartTime =
      max s.nextStartTime clock + chunkDuration samples ∧
    (onEnded s.nextSourceId (onmessage clock now m s)).active = s.active := by
  obtain ⟨ctx, hc⟩ := Option.ne_none_iff_exists'.mp hctx
  unfold onmessage
  set s2 := applyTurnComplete now m (applyTranscription m s) with hs2
  obtain ⟨-, hsrc1, hact1, hnst1, hnid1, hoc1, -, -⟩ := applyTranscription_fields m s
  obtain ⟨hsrc2, hact2, hnst2, hnid2, hoc2, -, -⟩ :=
    applyTurnComplete_fields now m (applyTranscription m s)
  rw [← hs2] at hsrc2 hact2 hnst2 hnid2 hoc2
  have hc2 : s2.outputAudioContext = some ctx := by rw [hoc2, hoc1, hc]
  unfold handleAudio
  rw [hbytes, hc2]
  dsimp only
  rw [hdec]
  dsimp only
  unfold applyInterrupted scheduleChunk onEnded
  rw [hint]
  simp only [Bool.false_eq_true, if_false]
  refine ⟨?_, ?_, ?_, ?_⟩ <;>
    simp only [hsrc2, hact2, hnst2, hnid2, hsrc1, hact1, hnst1, hnid1]
  rw [List.erase_append_right _ hfresh, List.erase_cons_head, List.append_nil]

/-- Witness for C2: the two-byte silent chunk `[0, 0]` decodes to the
single sample 0; scheduling it on `playingState` (cursor 3) with the
output clock at 5 starts it at `max 3 5 = 5`, advances the cursor by
`1/24000`, adds handle 1 to the set, and the `ended` listener removes it
again. -/
theorem c2_schedule_chunk_witness :
    ((⟨none, none, false, some [0, 0], false⟩ : ServerMessage).audioData = some [0, 0] ∧
      decodeAudioChunk [0, 0] = .ok (bytesToSamples [0, 0]) ∧
      playingState.outputAudioContext ≠ none ∧
      (⟨none, none, false, some [0, 0], false⟩ : ServerMessage).interrupted = false ∧
      playingState.nextSourceId ∉ playingState.active) ∧
    ((onmessage 5 7 ⟨none, none, false, some [0, 0], false⟩ playingState).sources =
        [⟨0, 0, 1, false⟩] ++
          [⟨1, max (3 : ℚ) 5, chunkDuration (bytesToSamples [0, 0]), false⟩] ∧
     (onmessage 5 7 ⟨none, none, false, some [0, 0], false⟩ playingState).active =
        [0] ++ [1] ∧
     (onmessage 5 7 ⟨none, none, false, some [0, 0], false⟩ playingState).nextStartTime =
        max (3 : ℚ) 5 + chunkDuration (bytesToSamples [0, 0]) ∧
     (onEnded 1 (onmessage 5 7 ⟨none, none, false, some [0, 0], false⟩
        playingState)).active = [0]) :=
  ⟨⟨rfl, rfl, by decide, rfl, by decide⟩,
    c2_schedule_chunk 5 7 _ playingState [0, 0] (bytesToSamples [0, 0]) rfl rfl
      (by decide) rfl (by decide)⟩

/-! ## Claim C3 -/

/-- Claim C3, counterexample.  An `interrupted` event that also carries a
malformed audio chunk is not handled: in the source the interruption check
(line 210 of src/unnamed/part_004) sits after the awaited decode, so the
decode rejection aborts the handler before it.  Processing such a message
on `playingState` (one active handle, cursor 3, clock 5) leaves the handle
active and unstopped and the cursor at 5 — ActivePlaybackSet is not
emptied, nothing is force-stopped, and the cursor is not reset to 0. -/
theorem c3_counterexample :
    (⟨none, none, false, some [0], true⟩ : ServerMessage).interrupted = true ∧
    (onmessage 5 7 ⟨none, none, false, some [0], true⟩ playingState).active = [0] ∧
    (⟨0, 0, 1, false⟩ : Source) ∈
      (onmessage 5 7 ⟨none, none, false, some [0], true⟩ playingState).sources ∧
    (onmessage 5 7 ⟨none, none, false, some [0], true⟩ playingState).nextStartTime = 5 ∧
    ¬ ((onmessage 5 7 ⟨none, none, false, some [0], true⟩ playingState).active = [] ∧
        (onmessage 5 7 ⟨none, none, false, some [0], true⟩
          playingState).nextStartTime = 0) := by
  refine ⟨rfl, ?_, ?_, ?_, ?_⟩ <;> decide

/-- Claim C3 as amended: after processing an `interrupted` event — provided
the same event does not also carry an audio chunk whose decode fails or
that arrives with a missing output context, in which case the handler
aborts before the interruption check — every handle that was in
ActivePlaybackSet has been force-stopped (its stopped copy is in the
source pool, and every pool entry with an id that was active is stopped,
hence audible at no time), ActivePlaybackSet is empty, and the playback
cursor is reset to its uninitialized value 0. -/
theorem c3_interruption (clock : ℚ) (now : ℕ) (m : ServerMessage) (s : AppState)
    (hint : m.interrupted = true)
    (hok : m.audioData = none ∨
      (s.outputAudioContext ≠ none ∧
        ∃ bytes samples, m.audioData = some bytes ∧
          decodeAudioChunk bytes = .ok samples)) :
    (onmessage clock now m s).active = [] ∧
    (onmessage clock now m s).nextStartTime = 0 ∧
    (∀ src ∈ s.sources, src.id ∈ s.active →
      { src with stopped := true } ∈ (onmessage clock now m s).sources) ∧
    (∀ src ∈ (onmessage clock now m s).sources, src.id ∈ s.active →
      src.stopped = true ∧ ∀ t, ¬ audibleAt src t) := by
  unfold onmessage
  set s2 := applyTurnComplete now m (applyTranscription m s) with hs2
  obtain ⟨-, hsrc1, hact1, -, -, hoc1, -, -⟩ := applyTranscription_fields m s
  obtain ⟨hsrc2, hact2, -, -, hoc2, -, -⟩ :=
    applyTurnComplete_fields now m (applyTranscription m s)
  rw [← hs2] at hsrc2 hact2 hoc2
  have hsrc : s2.sources = s.sources := by rw [hsrc2, hsrc1]
  have hact : s2.active = s.active := by rw [hact2, hact1]
  have main : ∀ u : AppState, (∀ i ∈ s.active, i ∈ u.active) →
      (∀ src ∈ s.sources, src ∈ u.sources) →
      (applyInterrupted m u).active = [] ∧
      (applyInterrupted m u).nextStartTime = 0 ∧
      (∀ src ∈ s.sources, src.id ∈ s.active →
        { src with stopped := true } ∈ (applyInterrupted m u).sources) ∧
      (∀ src ∈ (applyInterrupted m u).sources, src.id ∈ s.active →
        src.stopped = true ∧ ∀ t, ¬ audibleAt src t) := by
    intro u hua husrc
    unfold applyInterrupted
    rw [if_pos hint]
    refine ⟨rfl, rfl, ?_, ?_⟩
    · intro src hmem hid
      have hmem2 : src ∈ u.sources := husrc src hmem
      have heq : (fun src => if src.id ∈ u.active then { src with stopped := true }
          else src) src = { src with stopped := true } := by
        simp [hua src.id hid]
      exact heq ▸ List.mem_map_of_mem _ hmem2
    · intro src hmem hid
      unfold stopActive at hmem
      simp only [List.mem_map] at hmem
      obtain ⟨src0, hsrc0, heq⟩ := hmem
      by_cases h0 : src0.id ∈ u.active
      · rw [if_pos h0] at heq
        subst heq
        exact ⟨rfl, fun t ht => by simp [audibleAt] at ht⟩
      · rw [if_neg h0] at heq
        subst heq
        exact absurd (hua src0.id hid) h0
  rcases hok with hnone | ⟨hctx, bytes, samples, hbytes, hdec⟩
  · unfold handleAudio
    rw [hnone]
    dsimp only
    exact main s2 (fun i hi => by rw [hact]; exact hi)
      (fun src hs => by rw [hsrc]; exact hs)
  · obtain ⟨ctx, hc⟩ := Option.ne_none_iff_exists'.mp hctx
    have hc2 : s2.outputAudioContext = some ctx := by rw [hoc2, hoc1, hc]
    unfold handleAudio
    rw [hbytes, hc2]
    dsimp only
    rw [hdec]
    dsimp only
    refine main _ ?_ ?_
    · intro i hi
      unfold scheduleChunk
      dsimp only
      rw [hact]
      exact List.mem_append_left _ hi
    · intro src hs
      unfold scheduleChunk
      dsimp only
      rw [hsrc]
      exact List.mem_append_left _ hs

/-- Witness for the amended claim C3: a pure `interrupted` event processed
on `playingState` (one active handle, cursor 3). -/
theorem c3_interruption_witness :
    ((⟨none, none, false, none, true⟩ : ServerMessage).interrupted = true ∧
      ((⟨none, none, false, none, true⟩ : ServerMessage).audioData = none ∨
        (playingState.outputAudioContext ≠ none ∧
          ∃ bytes samples,
            (⟨none, none, false, none, true⟩ : ServerMessage).audioData = some bytes ∧
              decodeAudioChunk bytes = .ok samples))) ∧
    ((onmessage 5 7 ⟨none, none, false, none, true⟩ playingState).active = [] ∧
     (onmessage 5 7 ⟨none, none, false, none, true⟩ playingState).nextStartTime = 0 ∧
     (∀ src ∈ playingState.sources, src.id ∈ playingState.active →
       { src with stopped := true } ∈
         (onmessage 5 7 ⟨none, none, false, none, true⟩ playingState).sources) ∧
     (∀ src ∈ (onmessage 5 7 ⟨none, none, false, none, true⟩ playingState).sources,
       src.id ∈ playingState.active →
         src.stopped = true ∧ ∀ t, ¬ audibleAt src t)) :=
  ⟨⟨rfl, Or.inl rfl⟩, c3_interruption 5 7 _ playingState rfl (Or.inl rfl)⟩

/-! ## Claim C4 -/

/-- Stopping against an empty active set changes no source. -/
theorem stopActive_nil (srcs : List Source) : stopActive [] srcs = srcs := by
  unfold stopActive
  simp

/-- Claim C4: invoking `disconnect` twice in succession yields the same
end state as invoking it once — status DISCONNECTED, ActivePlaybackSet
empty, cursor reset to 0, both transcript accumulators empty.  In the
source `disconnect` cannot raise: `session.close()` and every
`source.stop()` are wrapped in `try {} catch {}` (so stopping an
already-stopped handle, closing an already-closed transport, or iterating
an empty set are no-ops), and `AudioContext.close()` returns a promise and
never throws synchronously; accordingly the embedding `disconnect` is a
total function, and this theorem applies it to an arbitrary state,
including states with already-stopped handles, a closed transport
(`sessionOpen = false`) or an empty set. -/
theorem c4_disconnect_idempotent (s : AppState) :
    disconnect (disconnect s) = disconnect s ∧
    (disconnect s).status = .DISCONNECTED ∧
    (disconnect s).active = [] ∧
    (disconnect s).nextStartTime = 0 ∧
    (disconnect s).currentInput = "" ∧
    (disconnect s).currentOutput = "" := by
  refine ⟨?_, rfl, rfl, rfl, rfl, rfl⟩
  show disconnect (disconnect s) = disconnect s
  conv_lhs => unfold disconnect
  dsimp only
  rw [stopActive_nil]
  rfl

/-! ## Claim C5 -/

/-- Claim C5, counterexample.  The claim states that a failed connect
attempt "performs full teardown of every resource acquired so far
(input/output audio contexts, capture device, transport handle)" with "no
resource leak".  The catch block of `connect` (src/unnamed/part_004, lines
236-239) only sets the error annotation and the status: after a
transport-open failure from the initial state, both audio contexts are
still referenced and open (teardown would reset the refs to null, as
`disconnect` does) and the captured media stream is still active. -/
theorem c5_counterexample :
    (connect ⟨true, false⟩ initState).status = .DISCONNECTED ∧
    (connect ⟨true, false⟩ initState).error = some "Gagal memulai sesi" ∧
    (connect ⟨true, false⟩ initState).inputAudioContext ≠ none ∧
    (connect ⟨true, false⟩ initState).outputAudioContext ≠ none ∧
    (connect ⟨true, false⟩ initState).mediaStreamActive = true := by
  refine ⟨rfl, rfl, ?_, ?_, rfl⟩ <;> decide

/-- Claim C5 as amended: when a connect attempt fails during CONNECTING
(device-acquisition failure or transport-open failure), the controller
surfaces a user-visible error annotation and terminates with
SessionState = DISCONNECTED, but performs no teardown of the resources
acquired before the failure: both audio contexts remain referenced and
open, and after a transport-open failure the capture device remains
acquired.  (They are released only by a later `disconnect`.) -/
theorem c5_connect_failure (env : ConnectEnv) (s : AppState)
    (hfail : env.mediaOK = false ∨ env.transportOK = false) :
    (connect env s).status = .DISCONNECTED ∧
    (connect env s).error = some "Gagal memulai sesi" ∧
    (connect env s).inputAudioContext = some ⟨false⟩ ∧
    (connect env s).outputAudioContext = some ⟨false⟩ ∧
    (connect env s).sessionOpen = s.sessionOpen ∧
    (connect env s).active = s.active ∧
    (connect env s).sources = s.sources ∧
    (env.mediaOK = true → (connect env s).mediaStreamActive = true) ∧
    (env.mediaOK = false → (connect env s).mediaStreamActive = s.mediaStreamActive) := by
  unfold connect connectFail
  rcases hfail with h | h
  · simp [h]
  · by_cases h2 : env.mediaOK = true <;> simp [h, h2]

/-- Witness for the amended claim C5: a transport-open failure from the
initial state. -/
theorem c5_connect_failure_witness :
    ((⟨true, false⟩ : ConnectEnv).mediaOK = false ∨
      (⟨true, false⟩ : ConnectEnv).transportOK = false) ∧
    ((connect ⟨true, false⟩ initState).status = .DISCONNECTED ∧
     (connect ⟨true, false⟩ initState).error = some "Gagal memulai sesi" ∧
     (connect ⟨true, false⟩ initState).inputAudioContext = some ⟨false⟩ ∧
     (connect ⟨true, false⟩ initState).outputAudioContext = some ⟨false⟩ ∧
     (connect ⟨true, false⟩ initState).sessionOpen = initState.sessionOpen ∧
     (connect ⟨true, false⟩ initState).active = initState.active ∧
     (connect ⟨true, false⟩ initState).sources = initState.sources ∧
     ((⟨true, false⟩ : ConnectEnv).mediaOK = true →
       (connect ⟨true, false⟩ initState).mediaStreamActive = true) ∧
     ((⟨true, false⟩ : ConnectEnv).mediaOK = false →
       (connect ⟨true, false⟩ initState).mediaStreamActive =
         initState.mediaStreamActive)) :=
  ⟨Or.inr rfl, c5_connect_failure ⟨true, false⟩ initState (Or.inr rfl)⟩

/-! ## Claim C6 -/

/-- A fragment-only message (no turn-complete marker, no audio payload, no
interruption marker) acts on the state exactly through the transcription
stage. -/
theorem onmessage_fragment (clock : ℚ) (now : ℕ) (m : ServerMessage) (s : AppState)
    (hA : m.audioData = none) (hI : m.interrupted = false)
    (hT : m.turnComplete = false) :
    onmessage clock now m s = applyTranscription m s := by
  unfold onmessage
  rw [applyTurnComplete_id now m _ hT]
  unfold handleAudio
  rw [hA]
  dsimp only
  unfold applyInterrupted
  simp [hI]

/-- Claim C6, counterexample.  The claim states that apart from the
noise-marker stripping no other characters — for example leading or
trailing whitespace of the fragment — are removed before appending.  In
the source (src/unnamed/part_004, line 161) the user-role fragment is also
trimmed: processing the fragment `" hi "` on a state whose user buffer
holds `"x"` yields `"xhi"`, not the claimed `"x" ++ " hi "` (the fragment
contains no noise markers, so stripping alone would leave it intact). -/
theorem c6_counterexample :
    stripNoise " hi " = " hi " ∧
    (onmessage 0 0 ⟨none, some " hi ", false, none, false⟩
      { initState with currentInput := "x" }).currentInput = "xhi" ∧
    ¬ (onmessage 0 0 ⟨none, some " hi ", false, none, false⟩
      { initState with currentInput := "x" }).currentInput =
        "x" ++ stripNoise " hi " := by
  refine ⟨?_, ?_, ?_⟩ <;> decide

/-- Claim C6 as amended: for every transcript fragment event, a model-role
fragment is appended verbatim to the model buffer, in arrival order, with
no separator; a user-role fragment first has the fixed noise-marker
vocabulary (`<noise>`, `[noise]`, case-insensitively) stripped and is then
also trimmed of leading and trailing whitespace before being appended (a
fragment that is empty after stripping and trimming leaves the buffer
unchanged); each fragment touches only its own role's buffer. -/
theorem c6_fragment_append (clock : ℚ) (now : ℕ) (s : AppState) (t1 t2 : String) :
    (onmessage clock now ⟨some t1, none, false, none, false⟩ s).currentOutput =
      s.currentOutput ++ t1 ∧
    (onmessage clock now ⟨some t1, none, false, none, false⟩ s).currentInput =
      s.currentInput ∧
    (onmessage clock now ⟨none, some t2, false, none, false⟩ s).currentInput =
      s.currentInput ++ jsTrim (stripNoise t2) ∧
    (onmessage clock now ⟨none, some t2, false, none, false⟩ s).currentOutput =
      s.currentOutput := by
  rw [onmessage_fragment clock now _ s rfl rfl rfl,
    onmessage_fragment clock now _ s rfl rfl rfl]
  refine ⟨rfl, rfl, ?_, ?_⟩ <;> unfold applyTranscription <;> dsimp only
  · by_cases h : jsTrim (stripNoise t2) = ""
    · rw [h, String.append_empty]
      simp [h]
    · simp [h]
  · by_cases h : jsTrim (stripNoise t2) = "" <;> simp [h]

/-! ## Claim C7 -/

/-- Claim C7, counterexample.  The claim states the marker biconditional
for each role whose buffer finalizes into a Message, but the source
hard-codes `type: 'chat'` for user messages (src/unnamed/part_004, line
172); only the model push (line 185) classifies.  A user turn whose
finalized text contains "correction:" — nothing in the user pipeline
strips the marker — is appended with type `chat`, not `correction`: a user
fragment "Correction: use a chair." followed by turn-complete in the same
message yields exactly one Message, of role user, whose text satisfies the
marker test yet whose type is `chat`. -/
theorem c7_counterexample :
    isCorrectionText "Correction: use a chair." = true ∧
    (onmessage 0 2 ⟨none, some "Correction: use a chair.", true, none, false⟩
        initState).messages =
      [⟨"2-in", .user, "Correction: use a chair.", .chat, 2⟩] ∧
    (⟨"2-in", .user, "Correction: use a chair.", .chat, 2⟩ : Message).type ≠
      .correction := by
  refine ⟨?_, ?_, ?_⟩ <;> decide

/-- Claim C7 as amended: at a turn-complete event, a finalizing model-role
buffer yields a Message whose type is `correction` exactly when the
finalized text case-insensitively contains one of the fixed marker
substrings ("correction:" / "tip:", the test `isCorrectionText`), and
`chat` otherwise; a finalizing user-role buffer always yields type `chat`,
regardless of markers in its text.  In particular a model-role turn
assembling to "Nice try. Correction: It is called a chair." yields
type `correction` (the witness evaluates this instance). -/
theorem c7_classification (clock : ℚ) (now : ℕ) (m : ServerMessage)
    (s : AppState) (hT : m.turnComplete = true) :
    (onmessage clock now m s).messages =
      (s.messages ++
        (if jsTrim (applyTranscription m s).currentInput ≠ "" then
          [userMessage now (applyTranscription m s).currentInput] else [])) ++
        (if jsTrim (applyTranscription m s).currentOutput ≠ "" then
          [modelMessage now (applyTranscription m s).currentOutput] else []) ∧
    (userMessage now (applyTranscription m s).currentInput).type = .chat ∧
    ((modelMessage now (applyTranscription m s).currentOutput).type = .correction ↔
      isCorrectionText ((applyTranscription m s).currentOutput) = true) := by
  obtain ⟨hmsg1, -, -, -, -, -, -, -⟩ := applyTranscription_fields m s
  obtain ⟨hm, -, -⟩ := applyTurnComplete_messages now m (applyTranscription m s) hT
  refine ⟨?_, rfl, ?_⟩
  · rw [onmessage_messages, hm, hmsg1]
  · unfold modelMessage
    dsimp only
    by_cases h : isCorrectionText (applyTranscription m s).currentOutput <;> simp [h]

/-- Witness for the amended claim C7: the claim's own example text,
arriving as a single model fragment together with the turn-complete
marker, yields a model Message classified `correction`. -/
theorem c7_classification_witness :
    ((⟨some "Nice try. Correction: It is called a chair.", none, true, none, false⟩ :
        ServerMessage).turnComplete = true ∧
      isCorrectionText ((applyTranscription
        ⟨some "Nice try. Correction: It is called a chair.", none, true, none, false⟩
        initState).currentOutput) = true ∧
      (modelMessage 3 (applyTranscription
        ⟨some "Nice try. Correction: It is called a chair.", none, true, none, false⟩
        initState).currentOutput).type = .correction) ∧
    ((onmessage 0 3
        ⟨some "Nice try. Correction: It is called a chair.", none, true, none, false⟩
        initState).messages =
      (initState.messages ++
        (if jsTrim (applyTranscription
            ⟨some "Nice try. Correction: It is called a chair.", none, true, none, false⟩
            initState).currentInput ≠ "" then
          [userMessage 3 (applyTranscription
            ⟨some "Nice try. Correction: It is called a chair.", none, true, none, false⟩
            initState).currentInput] else [])) ++
        (if jsTrim (applyTranscription
            ⟨some "Nice try. Correction: It is called a chair.", none, true, none, false⟩
            initState).currentOutput ≠ "" then
          [modelMessage 3 (applyTranscription
            ⟨some "Nice try. Correction: It is called a chair.", none, true, none, false⟩
            initState).currentOutput] else []) ∧
     (userMessage 3 (applyTranscription
        ⟨some "Nice try. Correction: It is called a chair.", none, true, none, false⟩
        initState).currentInput).type = .chat ∧
     ((modelMessage 3 (applyTranscription
          ⟨some "Nice try. Correction: It is called a chair.", none, true, none, false⟩
          initState).currentOutput).type = .correction ↔
        isCorrectionText ((applyTranscription
          ⟨some "Nice try. Correction: It is called a chair.", none, true, none, false⟩
          initState).currentOutput) = true)) :=
  ⟨⟨rfl, by decide, by decide⟩,
    c7_classification 0 3 _ initState rfl⟩

/-! ## Claim C8 -/

/-- Role counts add over concatenation of histories. -/
theorem roleCount_append (r : Role) (l1 l2 : List Message) :
    roleCount r (l1 ++ l2) = roleCount r l1 + roleCount r l2 := by
  unfold roleCount
  rw [List.filter_append, List.length_append]

/-- Claim C8: at every turn-complete event, at most one Message is
appended per role (the user count grows by 1 exactly when the user buffer
is non-empty after trimming, likewise for the model count, and never by
more than 1); a buffer that trims to the empty string — regardless of the
fragment sequence that produced it, including one whose concatenation
trims to empty — produces no Message for that role; and both buffers are
reset to empty either way. -/
theorem c8_turn_complete_messages (clock : ℚ) (now : ℕ) (m : ServerMessage)
    (s : AppState) (hT : m.turnComplete = true) :
    (onmessage clock now m s).currentInput = "" ∧
    (onmessage clock now m s).currentOutput = "" ∧
    roleCount .user (onmessage clock now m s).messages =
      roleCount .user s.messages +
        (if jsTrim (applyTranscription m s).currentInput ≠ "" then 1 else 0) ∧
    roleCount .model (onmessage clock now m s).messages =
      roleCount .model s.messages +
        (if jsTrim (applyTranscription m s).currentOutput ≠ "" then 1 else 0) ∧
    (∀ r, roleCount r (onmessage clock now m s).messages ≤
      roleCount r s.messages + 1) ∧
    (jsTrim (applyTranscription m s).currentInput = "" →
      roleCount .user (onmessage clock now m s).messages =
        roleCount .user s.messages) ∧
    (jsTrim (applyTranscription m s).currentOutput = "" →
      roleCount .model (onmessage clock now m s).messages =
        roleCount .model s.messages) := by
  obtain ⟨hmsg1, -, -, -, -, -, -, -⟩ := applyTranscription_fields m s
  obtain ⟨hm, hin, hout⟩ := applyTurnComplete_messages now m (applyTranscription m s) hT
  obtain ⟨hmsgA, hinA, houtA, -, -, -⟩ :=
    handleAudio_fields clock m (applyTurnComplete now m (applyTranscription m s))
  have hmessages : (onmessage clock now m s).messages =
      (s.messages ++
        (if jsTrim (applyTranscription m s).currentInput ≠ "" then
          [userMessage now (applyTranscription m s).currentInput] else [])) ++
        (if jsTrim (applyTranscription m s).currentOutput ≠ "" then
          [modelMessage now (applyTranscription m s).currentOutput] else []) := by
    rw [onmessage_messages, hm, hmsg1]
  have hcur : (onmessage clock now m s).currentInput = "" ∧
      (onmessage clock now m s).currentOutput = "" := by
    unfold onmessage
    rw [hinA, houtA, hin, hout]
    exact ⟨rfl, rfl⟩
  refine ⟨hcur.1, hcur.2, ?_, ?_, ?_, ?_, ?_⟩ <;>
    rw [hmessages] <;>
    [skip; skip; intro r; intro h; intro h] <;>
    by_cases h1 : jsTrim (applyTranscription m s).currentInput = "" <;>
    by_cases h2 : jsTrim (applyTranscription m s).currentOutput = "" <;>
    simp_all [roleCount_append, roleCount, userMessage, modelMessage] <;>
    cases r <;> simp

/-- Witness for C8: a pure turn-complete event on a state whose user
buffer is whitespace only (trims to empty: no user Message) and whose
model buffer holds "Hi" (one model Message); both buffers are reset. -/
theorem c8_turn_complete_messages_witness :
    turnOnlyMsg.turnComplete = true ∧
    ((onmessage 0 7 turnOnlyMsg bufferedState).currentInput = "" ∧
     (onmessage 0 7 turnOnlyMsg bufferedState).currentOutput = "" ∧
     roleCount .user (onmessage 0 7 turnOnlyMsg bufferedState).messages =
      roleCount .user bufferedState.messages +
        (if jsTrim (applyTranscription turnOnlyMsg bufferedState).currentInput ≠ ""
          then 1 else 0) ∧
     roleCount .model (onmessage 0 7 turnOnlyMsg bufferedState).messages =
      roleCount .model bufferedState.messages +
        (if jsTrim (applyTranscription turnOnlyMsg bufferedState).currentOutput ≠ ""
          then 1 else 0) ∧
     (∀ r, roleCount r (onmessage 0 7 turnOnlyMsg bufferedState).messages ≤
      roleCount r bufferedState.messages + 1) ∧
     (jsTrim (applyTranscription turnOnlyMsg bufferedState).currentInput = "" →
      roleCount .user (onmessage 0 7 turnOnlyMsg bufferedState).messages =
        roleCount .user bufferedState.messages) ∧
     (jsTrim (applyTranscription turnOnlyMsg bufferedState).currentOutput = "" →
      roleCount .model (onmessage 0 7 turnOnlyMsg bufferedState).messages =
        roleCount .model bufferedState.messages)) :=
  ⟨rfl, c8_turn_complete_messages 0 7 turnOnlyMsg bufferedState rfl⟩

/-! ## Claim C10 -/

/-- Every message present after one step either was already present or
carries type `chat` or `correction`. -/
theorem step_message_types (s : AppState) (e : Event) :
    ∀ msg ∈ (step s e).messages,
      msg ∈ s.messages ∨ msg.type = .chat ∨ msg.type = .correction := by
  intro msg hmem
  cases e with
  | server clock now m =>
    by_cases hT : m.turnComplete = true
    · obtain ⟨hmsg1, -, -, -, -, -, -, -⟩ := applyTranscription_fields m s
      obtain ⟨hm, -, -⟩ := applyTurnComplete_messages now m (applyTranscription m s) hT
      unfold step at hmem
      rw [onmessage_messages, hm, hmsg1] at hmem
      rcases List.mem_append.mp hmem with h | h
      · rcases List.mem_append.mp h with h2 | h2
        · exact Or.inl h2
        · by_cases h1 : jsTrim (applyTranscription m s).currentInput = ""
          · simp [h1] at h2
          · rw [if_pos h1] at h2
            rw [List.mem_singleton.mp h2]
            exact Or.inr (Or.inl rfl)
      · by_cases h1 : jsTrim (applyTranscription m s).currentOutput = ""
        · simp [h1] at h
        · rw [if_pos h1] at h
          rw [List.mem_singleton.mp h]
          unfold modelMessage
          dsimp only
          by_cases hcor : isCorrectionText (applyTranscription m s).currentOutput <;>
            simp [hcor]
    · have hT2 : m.turnComplete = false := by
        cases h : m.turnComplete
        · rfl
        · exact absurd h hT
      obtain ⟨hmsg1, -, -, -, -, -, -, -⟩ := applyTranscription_fields m s
      unfold step at hmem
      rw [onmessage_messages, applyTurnComplete_id now m _ hT2, hmsg1] at hmem
      exact Or.inl hmem
  | ended id => exact Or.inl hmem
  | stopSession => exact Or.inl hmem
  | startSession env =>
    unfold step connect connectFail at hmem
    by_cases h1 : env.mediaOK = true <;> by_cases h2 : env.transportOK = true <;>
      simp [h1, h2] at hmem <;> exact Or.inl hmem
  | clearLog => simp [step, clearMessages] at hmem

/-- Messages of type `tip` never appear, step by step. -/
theorem run_no_tip_aux (evs : List Event) :
    ∀ s : AppState, (∀ msg ∈ s.messages, msg.type ≠ .tip) →
      ∀ msg ∈ (List.foldl step s evs).messages, msg.type ≠ .tip := by
  induction evs with
  | nil => intro s h; exact h
  | cons e evs ih =>
    intro s h
    simp only [List.foldl_cons]
    refine ih (step s e) ?_
    intro msg hm
    rcases step_message_types s e msg hm with h1 | h2 | h3
    · exact h msg h1
    · rw [h2]; decide
    · rw [h3]; decide

/-- Claim C10: every Message ever appended to the conversation history has
type `chat` or `correction`; although the data model declares a third type
`tip`, no run of the program from the initial state over any sequence of
events (server messages, source-completion callbacks, disconnects,
connects, log clears) ever yields a Message of type `tip` in the history
(tip-marked texts are classified as `correction`). -/
theorem c10_no_tip (evs : List Event) :
    ∀ msg ∈ (run evs).messages, msg.type ≠ .tip := by
  unfold run
  exact run_no_tip_aux evs initState (fun m hm => absurd hm (List.not_mem_nil m))

/-- Witness for C10: a two-event run producing one model message of type
`chat` in the history. -/
theorem c10_no_tip_witness :
    (⟨"2-out", Role.model, "hello", MsgType.chat, 2⟩ : Message) ∈
      (run [.server 0 1 ⟨some "hello", none, false, none, false⟩,
            .server 0 2 ⟨none, none, true, none, false⟩]).messages ∧
    (⟨"2-out", Role.model, "hello", MsgType.chat, 2⟩ : Message).type ≠ .tip :=
  ⟨by decide,
    c10_no_tip [.server 0 1 ⟨some "hello", none, false, none, false⟩,
                .server 0 2 ⟨none, none, true, none, false⟩] _ (by decide)⟩

end LinguistLive
